import Mathlib

/-!
# Verification of the lab84 Mandelbrot renderer (src/lab84-mandelbrot-wgpu/src/state.rs)

Shallow embedding of the rendering core: the `ViewParams` data model, the CPU
preview generator (`compute_cpu_preview`, `hsv_to_rgb_u8`), and the resource /
render-orchestration state machine (`State::new`, `State::resize`,
`State::trigger_render`, `State::render`).

Modelling conventions:
* `u32` values are `Nat` (all arithmetic stays far below `2^32` on the inputs
  evaluated; where `f32` conversion of a `u32` matters it is modelled
  explicitly by `f32round`, round-to-nearest-even at 24 significant bits).
* `f32` arithmetic in the Mandelbrot loop and the HSV conversion is modelled
  with exact rationals `ℚ`.  Every concrete trajectory evaluated below stays on
  values (small dyadic rationals, or exactly representable quotients) on which
  the source's `f32` operations are exact, so the rational model agrees with
  the code there.
* The single transcendental in the source, `f32::atan2` together with the
  `(angle + PI) / (2*PI) * 360` hue mapping of the in-set branch, is beyond a
  rational embedding; the whole in-set hue computation is therefore a parameter
  `in_set_hue : ℚ → ℚ → ℚ` (first argument `z_imag`, second `z_real`).  No
  claim below depends on its value.
* GPU objects carry no pixels here; a texture is its extent plus a creation
  generation (`gen`), incremented on every `create_texture` call, so that
  "this bind group references the newly created texture" is expressible.
  Queue traffic is recorded as a list of `GpuOp` events, in submission order.
-/

namespace Lab84

/-- `const LOW_RES_WIDTH: u32 = 320`. -/
def LOW_RES_WIDTH : Nat := 320

/-- `const LOW_RES_HEIGHT: u32 = 180`. -/
def LOW_RES_HEIGHT : Nat := 180

/-- `const MAX_ITERATIONS: u32 = 1000`. -/
def MAX_ITERATIONS : Nat := 1000

/-- `const PREVIEW_ITERATIONS: u32 = 300`. -/
def PREVIEW_ITERATIONS : Nat := 300

/-- The `ViewParams` struct of the source: `center: [f32; 2]`,
`range: [f32; 2]`, `screen_dims: [u32; 2]` (values modelled as exact rationals
resp. naturals; the declared component widths are recorded separately below). -/
structure ViewParams where
  center : ℚ × ℚ
  range : ℚ × ℚ
  screen_dims : Nat × Nat
  deriving DecidableEq

/-- Bit width of each component of `ViewParams.center` as declared in the
source (`center: [f32; 2]`, i.e. IEEE-754 single precision, 32 bits). -/
def center_component_bits : Nat := 32

/-- Bit width of each component of `ViewParams.range` as declared in the
source (`range: [f32; 2]`). -/
def range_component_bits : Nat := 32

/-- Bit width of each component of `ViewParams.screen_dims` as declared in the
source (`screen_dims: [u32; 2]`). -/
def screen_dims_component_bits : Nat := 32

/-- Modelled from the spec: §3 of the spec declares
`center: (f64, f64)`, i.e. 64-bit (double-precision) components.  This records
the spec's claimed component width for comparison with the source's. -/
def spec_center_component_bits : Nat := 64

/-- Modelled from the spec: the spec's claimed width of `range` components
(`range: (f64, f64)`). -/
def spec_range_component_bits : Nat := 64

/-- Rust's saturating `as u8` cast from a (finite, here rational) float:
truncation toward zero clamped to `[0, 255]`.  For `x ∈ (-1, 0)` truncation
gives `0`, which `Int.toNat ∘ Int.floor` also gives; values below `-1`
saturate to `0` (again via `Int.toNat`), values `≥ 255` to `255`. -/
def rustAsU8 (x : ℚ) : Nat := min 255 (Int.toNat ⌊x⌋)

/-- `hsv_to_rgb_u8` from the source, over exact rationals.  The source's
`h_sector.floor() as i32` is modelled by `Int.floor` (the saturating `as i32`
is exact for every value reachable here), and the final `match i` with arms
`0..=4` and `_` by the nested conditional. -/
def hsv_to_rgb_u8 (h s v : ℚ) : Nat × Nat × Nat :=
  if s = 0 then
    let val := rustAsU8 (v * 255)
    (val, val, val)
  else
    let h_sector := h / 60
    let i : ℤ := ⌊h_sector⌋
    let f : ℚ := h_sector - (i : ℚ)
    let p := v * (1 - s)
    let q := v * (1 - s * f)
    let t := v * (1 - s * (1 - f))
    let rgb : ℚ × ℚ × ℚ :=
      if i = 0 then (v, t, p)
      else if i = 1 then (q, v, p)
      else if i = 2 then (p, v, t)
      else if i = 3 then (p, q, v)
      else if i = 4 then (t, p, v)
      else (v, p, q)
    (rustAsU8 (rgb.1 * 255), rustAsU8 (rgb.2.1 * 255), rustAsU8 (rgb.2.2 * 255))

/-- One step of the source's loop body:
`z_real_new = z_real*z_real - z_imag*z_imag + c_real;
 z_imag = 2.0*z_real*z_imag + c_imag; z_real = z_real_new`. -/
def mandelStep (c z : ℚ × ℚ) : ℚ × ℚ :=
  (z.1 * z.1 - z.2 * z.2 + c.1, 2 * z.1 * z.2 + c.2)

/-- The source's `while z_real*z_real + z_imag*z_imag <= 4.0 &&
iterations < PREVIEW_ITERATIONS` loop.  `fuel` is `cap - iterations`, so the
fuel running out is exactly the `iterations < cap` guard failing. -/
def mandelGo (c : ℚ × ℚ) : Nat → (ℚ × ℚ) → Nat → (ℚ × ℚ) × Nat
  | 0, z, it => (z, it)
  | fuel + 1, z, it =>
    if z.1 * z.1 + z.2 * z.2 ≤ 4 then mandelGo c fuel (mandelStep c z) (it + 1)
    else (z, it)

/-- Run the escape-time loop from `z = 0`, `iterations = 0`; returns the final
`z` and the iteration count. -/
def mandelRun (cap : Nat) (c : ℚ × ℚ) : (ℚ × ℚ) × Nat := mandelGo c cap (0, 0) 0

/-- The escaped-branch hue of the source:
`(iterations as f32 / PREVIEW_ITERATIONS as f32) * 360.0`. -/
def escapeHue (iterations cap : Nat) : ℚ := (iterations : ℚ) / (cap : ℚ) * 360

/-- The per-pixel body of `compute_cpu_preview`: normalize, map to the complex
plane, run the escape loop, pick the colour.  `in_set_hue z_imag z_real`
abstracts the in-set branch's `(z_imag.atan2(z_real) + PI) / (2.0*PI) * 360.0`
(transcendental, see the file header). -/
def pixelColor (in_set_hue : ℚ → ℚ → ℚ) (p : ViewParams) (x y : Nat) :
    Nat × Nat × Nat :=
  let w := p.screen_dims.1
  let h := p.screen_dims.2
  let norm_x : ℚ := (x : ℚ) / (w : ℚ) - 1/2
  let norm_y : ℚ := (y : ℚ) / (h : ℚ) - 1/2
  let c : ℚ × ℚ :=
    (p.center.1 + norm_x * p.range.1, p.center.2 + norm_y * p.range.2)
  let r := mandelRun PREVIEW_ITERATIONS c
  if r.2 = PREVIEW_ITERATIONS then
    hsv_to_rgb_u8 (in_set_hue r.1.2 r.1.1) 1 1
  else
    hsv_to_rgb_u8 (escapeHue r.2 PREVIEW_ITERATIONS) 1 1

/-- The four bytes the source writes for pixel `(x, y)`:
`row[idx] = r; row[idx+1] = g; row[idx+2] = b; row[idx+3] = 255`. -/
def pixelBytes (in_set_hue : ℚ → ℚ → ℚ) (p : ViewParams) (x y : Nat) :
    List Nat :=
  let c := pixelColor in_set_hue p x y
  [c.1, c.2.1, c.2.2, 255]

/-- One scanline of the output: the source's `for x in 0..width` loop filling
one `par_chunks_mut(width * 4)` row chunk. -/
def rowBytes (in_set_hue : ℚ → ℚ → ℚ) (p : ViewParams) (y : Nat) : List Nat :=
  (List.range p.screen_dims.1).flatMap fun x => pixelBytes in_set_hue p x y

/-- `compute_cpu_preview`: the row-major RGBA buffer.  The source allocates
`width*height*4` zero bytes and each Rayon worker overwrites a disjoint
`width*4`-byte row chunk (chunk index = `y`); since every byte of every chunk
is written, the result is exactly the concatenation of the rows. -/
def compute_cpu_preview (in_set_hue : ℚ → ℚ → ℚ) (p : ViewParams) : List Nat :=
  (List.range p.screen_dims.2).flatMap fun y => rowBytes in_set_hue p y

/-- The preview-parameter override performed by `State::new` and
`State::trigger_render`: `ViewParams { screen_dims: [LOW_RES_WIDTH,
LOW_RES_HEIGHT], ..params }`. -/
def previewParams (p : ViewParams) : ViewParams :=
  { p with screen_dims := (LOW_RES_WIDTH, LOW_RES_HEIGHT) }

/-! ## The `u32 → f32` conversion used in the workgroup-count computation

`(self.size.width as f32 / 8.0).ceil() as u32` converts the `u32` width to
`f32` (round to nearest, ties to even — inexact above `2^24`), divides by `8`
(exact: a power of two only changes the exponent), takes `ceil` (exact: the
result is an integer below `2^29`, representable), and casts back (exact).
So the whole expression equals `⌈f32round width / 8⌉ = (f32round width + 7)/8`
with `f32round` the integer rounding below. -/

/-- The exponent of the ulp of `n` in `f32`: the least `s ≤ 8` with
`n < 2^(24+s)` (for `n < 2^32`, `s ≤ 8` always suffices). -/
def f32ulpExp (n : Nat) : Nat :=
  if n < 2 ^ 24 then 0
  else if n < 2 ^ 25 then 1
  else if n < 2 ^ 26 then 2
  else if n < 2 ^ 27 then 3
  else if n < 2 ^ 28 then 4
  else if n < 2 ^ 29 then 5
  else if n < 2 ^ 30 then 6
  else if n < 2 ^ 31 then 7
  else 8

/-- Round a natural number (below `2^32`) to the nearest `f32`-representable
integer, ties to even: round to the nearest multiple of `2^s` where `s` is the
ulp exponent. -/
def f32round (n : Nat) : Nat :=
  let s := f32ulpExp n
  let u := 2 ^ s
  let q := n / u
  let r := n % u
  if 2 * r < u then q * u
  else if u < 2 * r then (q + 1) * u
  else if q % 2 = 0 then q * u else (q + 1) * u

/-- `(n as f32 / 8.0).ceil() as u32` from `State::trigger_render`, via the
exactness argument above. -/
def ceilDivF32 (n : Nat) : Nat := (f32round n + 7) / 8

/-! ## The orchestration state machine -/

/-- A texture as far as the orchestration is concerned: its extent and a
creation generation (each `create_texture` call yields a fresh generation). -/
structure Texture where
  width : Nat
  height : Nat
  gen : Nat
  deriving DecidableEq

/-- A bind group, reduced to the generation of the texture whose view it
holds (the sampler and the uniform buffer are never recreated). -/
structure BindGroupRef where
  texGen : Nat
  deriving DecidableEq

/-- The fields of `State` relevant to the orchestration claims.  `sizeW/sizeH`
model `self.size`, `configW/configH` the surface configuration extent,
`nextGen` the next fresh texture generation. -/
structure MState where
  sizeW : Nat
  sizeH : Nat
  configW : Nat
  configH : Nat
  viewParams : ViewParams
  highRes : Texture
  lowRes : Texture
  high_res_render_bind_group : BindGroupRef
  low_res_render_bind_group : BindGroupRef
  compute_bind_group : BindGroupRef
  nextGen : Nat
  show_low_res : Bool
  deriving DecidableEq

/-- Commands sent to the GPU queue, in submission order.  `uploadPreview p`
stands for `queue.write_texture` of `compute_cpu_preview p`;
`writeViewParams p` for `queue.write_buffer` of the uniform;
`dispatch x y z` for `dispatch_workgroups(x, y, z)`; the two draw events for
`render_pass.draw(0..6, 0..1)` under the respective bind group. -/
inductive GpuOp where
  | uploadPreview (p : ViewParams)
  | writeViewParams (p : ViewParams)
  | dispatch (x y z : Nat)
  | drawLowRes
  | drawHighRes
  deriving DecidableEq

/-- `State::trigger_render(with_preview)`: optionally recompute and upload the
preview and set `show_low_res`; then refresh `screen_dims` from `size`, upload
the uniform, and submit exactly one compute dispatch with workgroup counts
`(size.width as f32 / 8.0).ceil() as u32` (resp. height). -/
def trigger_render (s : MState) (with_preview : Bool) : MState × List GpuOp :=
  let t : MState × List GpuOp :=
    if with_preview then
      ({ s with show_low_res := true },
        [GpuOp.uploadPreview (previewParams s.viewParams)])
    else (s, [])
  let s1 := t.1
  let vp := { s1.viewParams with screen_dims := (s1.sizeW, s1.sizeH) }
  let s2 := { s1 with viewParams := vp }
  (s2, t.2 ++ [GpuOp.writeViewParams vp,
    GpuOp.dispatch (ceilDivF32 s2.sizeW) (ceilDivF32 s2.sizeH) 1])

/-- `State::resize`: a no-op when either dimension is zero; otherwise update
`size` and the surface configuration, recreate the high-res texture at the new
extent (fresh generation), rebuild the two bind groups that referenced it,
update `screen_dims`, and call `trigger_render(false)`. -/
def resize (s : MState) (new_width new_height : Nat) : MState × List GpuOp :=
  if 0 < new_width ∧ 0 < new_height then
    let s1 : MState := { s with
      sizeW := new_width, sizeH := new_height,
      configW := new_width, configH := new_height,
      highRes := ⟨new_width, new_height, s.nextGen⟩,
      high_res_render_bind_group := ⟨s.nextGen⟩,
      compute_bind_group := ⟨s.nextGen⟩,
      nextGen := s.nextGen + 1,
      viewParams := { s.viewParams with
        screen_dims := (new_width, new_height) } }
    trigger_render s1 false
  else (s, [])

/-- `State::new` for a window of inner size `(w, h)` (GPU acquisition elided):
initial `ViewParams { center: [-0.5, 0.0], range: [3.5, 2.0],
screen_dims: [w, h] }`, the two textures (high-res generation 0, low-res
generation 1), bind groups against them, `show_low_res = false`; then
`trigger_render(false)`, then compute and upload the preview and set
`show_low_res = true`. -/
def new (w h : Nat) : MState × List GpuOp :=
  let view_params : ViewParams := ⟨(-(1/2), 0), (7/2, 2), (w, h)⟩
  let s0 : MState := {
    sizeW := w, sizeH := h, configW := w, configH := h,
    viewParams := view_params,
    highRes := ⟨w, h, 0⟩, lowRes := ⟨LOW_RES_WIDTH, LOW_RES_HEIGHT, 1⟩,
    high_res_render_bind_group := ⟨0⟩,
    low_res_render_bind_group := ⟨1⟩,
    compute_bind_group := ⟨0⟩,
    nextGen := 2, show_low_res := false }
  let t := trigger_render s0 false
  ({ t.1 with show_low_res := true },
    t.2 ++ [GpuOp.uploadPreview (previewParams t.1.viewParams)])

/-- `State::render` (surface acquisition and presentation elided): draw the
low-res bind group and clear `show_low_res` if it was set, else draw the
high-res bind group. -/
def render (s : MState) : MState × GpuOp :=
  if s.show_low_res then ({ s with show_low_res := false }, GpuOp.drawLowRes)
  else (s, GpuOp.drawHighRes)

/-- The compute dispatches among a list of queue commands. -/
def dispatchesOf (ops : List GpuOp) : List (Nat × Nat × Nat) :=
  ops.filterMap fun op =>
    match op with
    | GpuOp.dispatch x y z => some (x, y, z)
    | _ => none

/-- A tiny concrete parameter set used to instantiate the per-pixel theorems:
a 1×1 target whose single pixel maps to `c = 2 - i/2` (escapes immediately). -/
def testParams : ViewParams := ⟨(5/2, 0), (1, 1), (1, 1)⟩

/-- A concrete stand-in for the abstract in-set hue function, used only to
instantiate theorems that hold for every such function. -/
def zeroHue : ℚ → ℚ → ℚ := fun z_imag z_real => 0 * z_imag * z_real

end Lab84

namespace Lab84

/-! ## Helper lemmas -/

/-- Unfolding lemma: the loop takes a step while `|z|² ≤ 4` holds. -/
theorem mandelGo_step (c z : ℚ × ℚ) (fuel it : Nat)
    (h : z.1 * z.1 + z.2 * z.2 ≤ 4) :
    mandelGo c (fuel + 1) z it = mandelGo c fuel (mandelStep c z) (it + 1) := by
  simp [mandelGo, h]

/-- Unfolding lemma: the loop exits once `|z|² > 4`. -/
theorem mandelGo_stop (c z : ℚ × ℚ) (fuel it : Nat)
    (h : ¬ z.1 * z.1 + z.2 * z.2 ≤ 4) :
    mandelGo c (fuel + 1) z it = (z, it) := by
  simp [mandelGo, h]

/-- For `c = 2 + 0i` the loop runs two steps (the guard `|z|² ≤ 4` still holds
at `z = 2` where `|z|² = 4` exactly) and exits at `z = 6` with count 2.  All
values on this trajectory are small integers, on which the source's `f32`
arithmetic is exact. -/
theorem mandelRun_at_two : mandelRun PREVIEW_ITERATIONS (2, 0) = ((6, 0), 2) := by
  show mandelGo (2, 0) 300 (0, 0) 0 = ((6, 0), 2)
  rw [show (300 : Nat) = 299 + 1 from rfl, mandelGo_step _ _ _ _ (by norm_num)]
  rw [show mandelStep (2, 0) (0, 0) = ((2 : ℚ), (0 : ℚ)) from by
    norm_num [mandelStep]]
  rw [show (299 : Nat) = 298 + 1 from rfl, mandelGo_step _ _ _ _ (by norm_num)]
  rw [show mandelStep (2, 0) ((2 : ℚ), (0 : ℚ)) = ((6 : ℚ), (0 : ℚ)) from by
    norm_num [mandelStep]]
  rw [show (298 : Nat) = 297 + 1 from rfl, mandelGo_stop _ _ _ _ (by norm_num)]

/-! ## C2 -/

/-- C2 (counterexample): for `c = 2 + 0i` the preview loop does NOT exit with
iteration count 1 — after the first iteration `|z|² = 4`, which does not
exceed `4`, so the `|z|² ≤ 4` guard admits one more step. -/
theorem c2_counterexample : ¬ (mandelRun PREVIEW_ITERATIONS (2, 0)).2 = 1 := by
  rw [mandelRun_at_two]
  decide

/-- C2 (amended): in the preview loop with cap 300, for `c = 2 + 0i` the
squared magnitude after the first iteration equals 4 exactly (so the loop does
not exit there), the loop exits with iteration count exactly 2, and the
escaped-branch hue is `(2/300)*360` degrees. -/
theorem c2_escape_iterations :
    (mandelStep (2, 0) (0, 0)).1 * (mandelStep (2, 0) (0, 0)).1 +
        (mandelStep (2, 0) (0, 0)).2 * (mandelStep (2, 0) (0, 0)).2 = 4 ∧
      mandelRun PREVIEW_ITERATIONS (2, 0) = ((6, 0), 2) ∧
      escapeHue (mandelRun PREVIEW_ITERATIONS (2, 0)).2 PREVIEW_ITERATIONS =
        2 / 300 * 360 := by
  refine ⟨by norm_num [mandelStep], mandelRun_at_two, ?_⟩
  rw [mandelRun_at_two]
  norm_num [escapeHue, PREVIEW_ITERATIONS]

/-! ## C6 -/

/-- C6 (counterexample): the source declares the `center` and `range`
components of `ViewParams` at 32 bits (`[f32; 2]`), not at the 64 bits
(`(f64, f64)`) the claim states. -/
theorem c6_counterexample :
    ¬ (center_component_bits = spec_center_component_bits ∧
      range_component_bits = spec_range_component_bits) := by
  decide

/-- C6 (amended): `ViewParams` stores `center` and `range` as pairs of
single-precision (`f32`, 32-bit) components and `screen_dims` as a pair of
`u32`, shared between the CPU preview path and the GPU uniform buffer. -/
theorem c6_component_widths :
    center_component_bits = 32 ∧ range_component_bits = 32 ∧
      screen_dims_component_bits = 32 := by
  decide

/-! ## C9 -/

/-- C9: the HSV→RGB conversion meets its golden values: hue 0 ↦ red, hue 120 ↦
green, hue 240 ↦ blue at full saturation/value, and zero saturation yields the
gray `(v*255, v*255, v*255)` for every hue. -/
theorem c9_hsv_golden :
    hsv_to_rgb_u8 0 1 1 = (255, 0, 0) ∧
      hsv_to_rgb_u8 120 1 1 = (0, 255, 0) ∧
      hsv_to_rgb_u8 240 1 1 = (0, 0, 255) ∧
      ∀ h v : ℚ, hsv_to_rgb_u8 h 0 v =
        (rustAsU8 (v * 255), rustAsU8 (v * 255), rustAsU8 (v * 255)) := by
  refine ⟨?_, ?_, ?_, ?_⟩
  · norm_num [hsv_to_rgb_u8, rustAsU8]
  · norm_num [hsv_to_rgb_u8, rustAsU8]
  · norm_num [hsv_to_rgb_u8, rustAsU8]
  · intro h v
    simp [hsv_to_rgb_u8]

/-! ## C1 -/

/-- C1: the resize path does not re-arm the preview.  Evaluating the machine
on the trace "construct; render; resize(5,6); render": the first render after
construction draws the low-res bind group and clears the flag (first two
conjuncts), but the render immediately following the resize draws the HIGH-res
bind group (third conjunct) — `State::resize` calls `trigger_render(false)`,
whose `with_preview` branch (the only code that re-uploads the preview and
sets `show_low_res`) is skipped, contradicting the claimed (and specified)
`ShowPreview` re-entry on every resize. -/
theorem c1_resize_skips_preview :
    (render (new 4 3).1).2 = GpuOp.drawLowRes ∧
      (render (new 4 3).1).1.show_low_res = false ∧
      (render (resize (render (new 4 3).1).1 5 6).1).2 = GpuOp.drawHighRes := by
  decide

/-! ## C3 -/

/-- C3: a resize request with a zero width or zero height is a complete no-op:
the state (surface configuration, textures, bind groups, every component of
`ViewParams`, the preview flag) is returned unchanged and no queue command —
in particular no compute dispatch — is submitted. -/
theorem c3_zero_resize_noop (s : MState) (w h : Nat) (hzero : w = 0 ∨ h = 0) :
    resize s w h = (s, []) := by
  have hng : ¬ (0 < w ∧ 0 < h) := by
    rcases hzero with h0 | h0 <;> simp [h0]
  simp [resize, hng]

/-- Witness for C3 at the state after construction and `w = 0`, `h = 7`. -/
theorem c3_zero_resize_noop_witness :
    ((0 : Nat) = 0 ∨ (7 : Nat) = 0) ∧
      resize (new 4 3).1 0 7 = ((new 4 3).1, []) :=
  ⟨Or.inl rfl, c3_zero_resize_noop (new 4 3).1 0 7 (Or.inl rfl)⟩

/-! ## C4 -/

/-- C4: after a resize with both dimensions positive, the high-res texture has
exactly the new extent, `screen_dims` equals the new extent, and both bind
groups that reference the high-res texture were rebuilt against the newly
created texture (they hold its fresh generation, `s.nextGen`, not any prior
one). -/
theorem c4_resize_rebuilds (s : MState) (w h : Nat) (hw : 0 < w) (hh : 0 < h) :
    (resize s w h).1.highRes.width = w ∧
      (resize s w h).1.highRes.height = h ∧
      (resize s w h).1.viewParams.screen_dims = (w, h) ∧
      (resize s w h).1.high_res_render_bind_group.texGen =
        (resize s w h).1.highRes.gen ∧
      (resize s w h).1.compute_bind_group.texGen =
        (resize s w h).1.highRes.gen ∧
      (resize s w h).1.highRes.gen = s.nextGen := by
  simp [resize, trigger_render, hw, hh]

/-- Witness for C4: resize the constructed state to `(2, 5)`. -/
theorem c4_resize_rebuilds_witness :
    ((0 : Nat) < 2 ∧ (0 : Nat) < 5) ∧
      ((resize (new 4 3).1 2 5).1.highRes.width = 2 ∧
        (resize (new 4 3).1 2 5).1.highRes.height = 5 ∧
        (resize (new 4 3).1 2 5).1.viewParams.screen_dims = (2, 5) ∧
        (resize (new 4 3).1 2 5).1.high_res_render_bind_group.texGen =
          (resize (new 4 3).1 2 5).1.highRes.gen ∧
        (resize (new 4 3).1 2 5).1.compute_bind_group.texGen =
          (resize (new 4 3).1 2 5).1.highRes.gen ∧
        (resize (new 4 3).1 2 5).1.highRes.gen = (new 4 3).1.nextGen) :=
  ⟨⟨by decide, by decide⟩,
    c4_resize_rebuilds (new 4 3).1 2 5 (by decide) (by decide)⟩

/-! ## C10 -/

/-- C10: a resize with both dimensions positive preserves the `center` and
`range` components of `ViewParams` exactly — neither `State::resize` nor the
`trigger_render(false)` it calls writes those fields, so the visible region of
the complex plane is unchanged. -/
theorem c10_resize_preserves_view (s : MState) (w h : Nat)
    (hw : 0 < w) (hh : 0 < h) :
    (resize s w h).1.viewParams.center = s.viewParams.center ∧
      (resize s w h).1.viewParams.range = s.viewParams.range := by
  simp [resize, trigger_render, hw, hh]

/-- Witness for C10: resize the constructed state to `(2, 5)`. -/
theorem c10_resize_preserves_view_witness :
    ((0 : Nat) < 2 ∧ (0 : Nat) < 5) ∧
      ((resize (new 4 3).1 2 5).1.viewParams.center =
          (new 4 3).1.viewParams.center ∧
        (resize (new 4 3).1 2 5).1.viewParams.range =
          (new 4 3).1.viewParams.range) :=
  ⟨⟨by decide, by decide⟩,
    c10_resize_preserves_view (new 4 3).1 2 5 (by decide) (by decide)⟩

/-! ## C5 -/

/-- Integers up to `2^24` are exactly representable in `f32`, so `f32round`
fixes them. -/
theorem f32round_eq_self {n : Nat} (h : n ≤ 2 ^ 24) : f32round n = n := by
  rcases Nat.lt_or_ge n (2 ^ 24) with hlt | hge
  · have hlt' : n < 16777216 := by simpa using hlt
    have hexp : f32ulpExp n = 0 := by simp [f32ulpExp, hlt']
    simp [f32round, hexp, Nat.div_one, Nat.mod_one]
  · have heq : n = 2 ^ 24 := Nat.le_antisymm h hge
    subst heq
    decide

/-- C5 (counterexample): the workgroup count is computed through `f32`, which
cannot represent `2^24 + 1 = 16777217` — it rounds to `2^24`, so the dispatch
after `resize(16777217, 8)` uses `2097152` workgroups in x, although the exact
ceiling `⌈16777217 / 8⌉` is `2097153`; `8 * 2097152 < 16777217`, so the
dispatched grid does not cover the width. -/
theorem c5_counterexample :
    dispatchesOf (resize (new 4 3).1 16777217 8).2 = [(2097152, 1, 1)] ∧
      (16777217 + 7) / 8 = 2097153 ∧ 8 * 2097152 < 16777217 := by
  refine ⟨by decide, by norm_num, by norm_num⟩

/-- C5 (amended): whenever the current dimensions are at most `2^24` (so their
`f32` images are exact — true of every realistic window), `trigger_render`
submits exactly one compute dispatch, whose grid is exactly
`(⌈width/8⌉, ⌈height/8⌉, 1)`: the first conjunct gives the single dispatch
with counts `(width+7)/8` and `(height+7)/8`, and the remaining conjuncts
characterize those as the integer ceilings of `width/8` and `height/8`. -/
theorem c5_dispatch_grid (s : MState) (wp : Bool)
    (hw : s.sizeW ≤ 2 ^ 24) (hh : s.sizeH ≤ 2 ^ 24) :
    dispatchesOf (trigger_render s wp).2 =
        [((s.sizeW + 7) / 8, (s.sizeH + 7) / 8, 1)] ∧
      s.sizeW ≤ 8 * ((s.sizeW + 7) / 8) ∧
      8 * ((s.sizeW + 7) / 8) < s.sizeW + 8 ∧
      s.sizeH ≤ 8 * ((s.sizeH + 7) / 8) ∧
      8 * ((s.sizeH + 7) / 8) < s.sizeH + 8 := by
  refine ⟨?_, by omega, by omega, by omega, by omega⟩
  cases wp <;>
    simp [trigger_render, dispatchesOf, ceilDivF32,
      f32round_eq_self hw, f32round_eq_self hh]

/-- Witness for C5 on the constructed state (size `(4, 3)`). -/
theorem c5_dispatch_grid_witness :
    ((new 4 3).1.sizeW ≤ 2 ^ 24 ∧ (new 4 3).1.sizeH ≤ 2 ^ 24) ∧
      (dispatchesOf (trigger_render (new 4 3).1 false).2 =
          [(((new 4 3).1.sizeW + 7) / 8, ((new 4 3).1.sizeH + 7) / 8, 1)] ∧
        (new 4 3).1.sizeW ≤ 8 * (((new 4 3).1.sizeW + 7) / 8) ∧
        8 * (((new 4 3).1.sizeW + 7) / 8) < (new 4 3).1.sizeW + 8 ∧
        (new 4 3).1.sizeH ≤ 8 * (((new 4 3).1.sizeH + 7) / 8) ∧
        8 * (((new 4 3).1.sizeH + 7) / 8) < (new 4 3).1.sizeH + 8) :=
  ⟨⟨by decide, by decide⟩,
    c5_dispatch_grid (new 4 3).1 false (by decide) (by decide)⟩

/-! ## Buffer-layout lemmas for C7 and C8 -/

/-- Each pixel contributes exactly four bytes. -/
theorem pixelBytes_length (ih : ℚ → ℚ → ℚ) (p : ViewParams) (x y : Nat) :
    (pixelBytes ih p x y).length = 4 := rfl

/-- Length of a concatenation of `n` equal-length blocks. -/
theorem length_flatMap_const (f : Nat → List Nat) (c : Nat)
    (hf : ∀ i, (f i).length = c) :
    ∀ n, ((List.range n).flatMap f).length = n * c := by
  intro n
  induction n with
  | zero => simp
  | succ m ihm =>
    rw [List.range_succ, List.flatMap_append]
    simp [ihm, hf, Nat.succ_mul]

/-- Dropping `k` equal-length blocks from a concatenation over `range' a n`
lands exactly at the start of block `a + k`. -/
theorem flatMap_range'_drop (f : Nat → List Nat) (c : Nat)
    (hf : ∀ i, (f i).length = c) :
    ∀ (k a n : Nat), k < n →
      ((List.range' a n).flatMap f).drop (k * c) =
        f (a + k) ++ (List.range' (a + k + 1) (n - k - 1)).flatMap f := by
  intro k
  induction k with
  | zero =>
    intro a n hk
    obtain ⟨m, rfl⟩ : ∃ m, n = m + 1 := ⟨n - 1, by omega⟩
    rw [List.range'_succ, List.flatMap_cons]
    simp
  | succ j ihj =>
    intro a n hk
    obtain ⟨m, rfl⟩ : ∃ m, n = m + 1 := ⟨n - 1, by omega⟩
    rw [List.range'_succ, List.flatMap_cons,
      show (j + 1) * c = (f a).length + j * c from by rw [hf]; ring,
      List.drop_append, ihj (a + 1) m (by omega),
      show a + 1 + j = a + (j + 1) from by omega,
      show a + (j + 1) + 1 = a + 1 + j + 1 from by omega,
      show m + 1 - (j + 1) - 1 = m - j - 1 from by omega]

/-! ## C7 -/

/-- C7: the preview buffer always has exactly
`LOW_RES_WIDTH * LOW_RES_HEIGHT * 4` bytes, for every caller-supplied
`ViewParams` (any window size) and every in-set hue function, because
`trigger_render` and `new` override `screen_dims` to the fixed preview
resolution (`previewParams`) before calling `compute_cpu_preview`. -/
theorem c7_preview_buffer_size (ih : ℚ → ℚ → ℚ) (p : ViewParams) :
    (compute_cpu_preview ih (previewParams p)).length =
      LOW_RES_WIDTH * LOW_RES_HEIGHT * 4 := by
  have hrow : ∀ y, (rowBytes ih (previewParams p) y).length =
      LOW_RES_WIDTH * 4 := by
    intro y
    simpa [rowBytes, previewParams] using
      length_flatMap_const (fun x => pixelBytes ih (previewParams p) x y) 4
        (fun _ => rfl) LOW_RES_WIDTH
  have := length_flatMap_const (rowBytes ih (previewParams p))
    (LOW_RES_WIDTH * 4) hrow LOW_RES_HEIGHT
  simpa [compute_cpu_preview, previewParams, LOW_RES_WIDTH, LOW_RES_HEIGHT,
    Nat.mul_assoc, Nat.mul_comm, Nat.mul_left_comm] using this

/-! ## C8 -/

/-- C8: each pixel of the preview is a pure function of the input parameters
and its own coordinates: for every in-plane `(x, y)`, the four bytes starting
at offset `(y*width + x)*4` of `compute_cpu_preview` equal
`pixelBytes ih p x y`, which reads nothing but `p`, `x` and `y`.  Since the
embedding of `compute_cpu_preview` is a function of its input, two calls on
the same `ViewParams` are byte-identical, and this theorem is the substance of
the claim: no pixel depends on any other scanline's work, which is what makes
the source's per-scanline parallel execution safe and deterministic. -/
theorem c8_pixel_pure (ih : ℚ → ℚ → ℚ) (p : ViewParams) (x y : Nat)
    (hx : x < p.screen_dims.1) (hy : y < p.screen_dims.2) :
    ((compute_cpu_preview ih p).drop ((y * p.screen_dims.1 + x) * 4)).take 4 =
      pixelBytes ih p x y := by
  have hrow : ∀ i, (rowBytes ih p i).length = p.screen_dims.1 * 4 := by
    intro i
    simpa [rowBytes] using
      length_flatMap_const (fun x => pixelBytes ih p x i) 4 (fun _ => rfl)
        p.screen_dims.1
  have hbuf : compute_cpu_preview ih p =
      (List.range' 0 p.screen_dims.2).flatMap (rowBytes ih p) := by
    rw [compute_cpu_preview, List.range_eq_range']
  have hidx : (y * p.screen_dims.1 + x) * 4 =
      y * (p.screen_dims.1 * 4) + x * 4 := by ring
  rw [hbuf, hidx, ← List.drop_drop,
    flatMap_range'_drop (rowBytes ih p) (p.screen_dims.1 * 4) hrow y 0
      p.screen_dims.2 hy,
    List.drop_append_of_le_length (by rw [hrow]; omega),
    show (0 : Nat) + y = y from by omega,
    show rowBytes ih p y =
        (List.range' 0 p.screen_dims.1).flatMap fun x => pixelBytes ih p x y
      from by rw [rowBytes, List.range_eq_range'],
    flatMap_range'_drop (fun x => pixelBytes ih p x y) 4 (fun _ => rfl) x 0
      p.screen_dims.1 hx,
    show (0 : Nat) + x = x from by omega,
    List.append_assoc,
    show (4 : Nat) = (pixelBytes ih p x y).length from rfl,
    List.take_left]

/-- Witness for C8 at `testParams` (1×1) and pixel `(0, 0)`. -/
theorem c8_pixel_pure_witness :
    (0 < testParams.screen_dims.1 ∧ 0 < testParams.screen_dims.2) ∧
      ((compute_cpu_preview zeroHue testParams).drop
            ((0 * testParams.screen_dims.1 + 0) * 4)).take 4 =
        pixelBytes zeroHue testParams 0 0 :=
  ⟨⟨by decide, by decide⟩,
    c8_pixel_pure zeroHue testParams 0 0 (by decide) (by decide)⟩

end Lab84
